import Mathlib

/-!
Verification of the cita_medica clinic front-desk application
(src/app.py, src/app_v2.py, src/app_v3.py).

The embedding models the availability/capacity engine, the per-date queue
ordering, the announcement FIFO and the relevant route handlers.  Dates are
structured values (the application stores ISO `YYYY-MM-DD` strings and parses
them with `datetime.strptime`); the record store is a structure of row lists;
store calls that an individual claim needs to be fallible are passed in as
`Except` values, all other store calls are modelled as succeeding.
-/

/-- A calendar date, as parsed from the `YYYY-MM-DD` strings the application
keeps in its `fecha` columns. -/
structure Fecha where
  y : Nat
  m : Nat
  d : Nat
deriving DecidableEq, Repr

/-- Gregorian leap-year rule, as used by Python's `datetime`. -/
def esBisiesto (y : Nat) : Bool :=
  (y % 4 == 0 && y % 100 != 0) || y % 400 == 0

/-- Days in the months strictly before month `m` of a year (leap flag `bis`). -/
def diasAntesDelMes (bis : Bool) (m : Nat) : Nat :=
  let base :=
    match m with
    | 1 => 0
    | 2 => 31
    | 3 => 59
    | 4 => 90
    | 5 => 120
    | 6 => 151
    | 7 => 181
    | 8 => 212
    | 9 => 243
    | 10 => 273
    | 11 => 304
    | _ => 334
  if bis ∧ 2 < m then base + 1 else base

/-- Proleptic-Gregorian day number with 0001-01-01 = 0, i.e. Python's
`date.toordinal() - 1` (0001-01-01 is a Monday in Python). -/
def Fecha.ordinal (f : Fecha) : Nat :=
  let y := f.y - 1
  y * 365 + y / 4 - y / 100 + y / 400 + diasAntesDelMes (esBisiesto f.y) f.m + (f.d - 1)

/-- Python `date.weekday()`: Monday = 0, ..., Sunday = 6. -/
def Fecha.weekday (f : Fecha) : Nat := f.ordinal % 7

/-- Chronological order on dates; the application compares the ISO strings,
which for these dates coincides with the lexicographic (y, m, d) order. -/
def fechaLe (a b : Fecha) : Prop :=
  a.y < b.y ∨ (a.y = b.y ∧ (a.m < b.m ∨ (a.m = b.m ∧ a.d ≤ b.d)))

instance : DecidableRel fechaLe := fun a b => by
  unfold fechaLe
  infer_instance

/-- Strictly-before relation on dates. -/
def fechaLt (a b : Fecha) : Prop := fechaLe a b ∧ a ≠ b

instance (a b : Fecha) : Decidable (fechaLt a b) := by
  unfold fechaLt
  infer_instance

/-- Numeric value of a list of decimal digit characters. -/
def valorDigitos (l : List Char) : Nat :=
  l.foldl (fun acc c => acc * 10 + (c.toNat - 48)) 0

/-- Python's `int(...)` applied to a string, as used on the configured capacity
limits: surrounding whitespace is ignored, an optional sign is allowed, and
anything else raises `ValueError` (modelled as `none`). -/
def pyInt? (s : String) : Option Int :=
  let t := ((s.data.dropWhile (· = ' ')).reverse.dropWhile (· = ' ')).reverse
  let core : Int × List Char :=
    match t with
    | '-' :: resto => (-1, resto)
    | '+' :: resto => (1, resto)
    | _ => (1, t)
  if core.2 ≠ [] ∧ core.2.all (·.isDigit) then
    some (core.1 * (valorDigitos core.2 : Int))
  else none

/-- One booked visit (a row of the `citas` table). -/
structure Cita where
  id : Nat
  nombre : String
  telefono : String
  fecha : Fecha
  motivo : String
  numero_seguro_medico : String
  nombre_seguro_medico : String
  orden : Option Int
  pagado : Bool
  fue_llamado : Bool
deriving DecidableEq, Repr

/-- One payment record (a row of the `pagos` table), keyed to a cita. -/
structure Pago where
  id : Nat
  cita_id : Nat
deriving DecidableEq, Repr

/-- The durable state the handlers read and write: the `citas`,
`fechas_bloqueadas`, `pagos` and `configuracion` tables. -/
structure Store where
  citas : List Cita
  fechas_bloqueadas : List Fecha
  pagos : List Pago
  configuracion : List (String × String)
deriving DecidableEq, Repr

/-- Last-binding lookup in the configuration rows (the Python dict
comprehension keeps the last row for a repeated key). -/
def buscarClave (rows : List (String × String)) (k : String) : Option String :=
  (rows.reverse.find? (fun par => par.1 == k)).map (·.2)

/-- The six configurable weekdays (`dias` in the source). -/
def diasSemana : List String :=
  ["lunes", "martes", "miercoles", "jueves", "viernes", "sabado"]

/-- `get_configuracion` (src/app.py lines 162-178 = src/app_v3.py lines 51-67):
reads the configuration table into a dict and `setdefault`s the blackout flags
to "false" and the six per-weekday limits to "999". -/
def get_configuracion (rows : List (String × String)) (k : String) : Option String :=
  match buscarClave rows k with
  | some v => some v
  | none =>
    if k = "bloquear_sabados" ∨ k = "bloquear_domingos" then some ("false")
    else if k ∈ diasSemana.map (fun dia => "max_pacientes_" ++ dia) then some ("999")
    else none

/-- `mapa_dias` from `get_dias_llenos`: `date.weekday()` index to configuration
key suffix; Sunday (6) has no entry. -/
def mapa_dias (wd : Nat) : Option String :=
  match wd with
  | 0 => some ("lunes")
  | 1 => some ("martes")
  | 2 => some ("miercoles")
  | 3 => some ("jueves")
  | 4 => some ("viernes")
  | 5 => some ("sabado")
  | _ => none

/-- The `int(config.get(f'max_pacientes_{nombre_dia}', 999))` step of
`get_dias_llenos`: the parsed capacity limit for a weekday; `none` when the
weekday is Sunday or when the stored value is not a valid integer (the
`ValueError` branch logs and skips, so the date is never marked full). -/
def limite? (config : String → Option String) (wd : Nat) : Option Int :=
  match mapa_dias wd with
  | none => none
  | some nombre =>
    match config ("max_pacientes_" ++ nombre) with
    | some s => pyInt? s
    | none => some 999

/-- `get_dias_llenos` (src/app.py lines 181-231 = src/app_v3.py lines 70-119,
identical bodies): fetches every cita's fecha (`citasQuery`; there is no date
filter in the query, although the docstring says "Solo considera fechas
futuras"), groups and counts them per date, and returns the sorted list of
dates whose count has reached the configured limit for their weekday.  The
whole body sits in a try/except, so a failing citas query yields `[]`. -/
def get_dias_llenos (config : String → Option String)
    (citasQuery : Except String (List Fecha)) : List Fecha :=
  match citasQuery with
  | .error _ => []
  | .ok fechas =>
    let citas_por_dia :=
      ((fechas.dedup).insertionSort fechaLe).map (fun f => (f, fechas.count f))
    citas_por_dia.filterMap (fun par =>
      if par.1.weekday ≤ 5 then
        match limite? config par.1.weekday with
        | some limite => if (par.2 : Int) ≥ limite then some par.1 else none
        | none => none
      else none)

/-- Membership characterisation of `get_dias_llenos` on a successful query:
a date is reported full iff it occurs among the fetched fechas, is a
Monday-to-Saturday date, and its occurrence count has reached the (parseable)
configured limit for its weekday. -/
theorem mem_get_dias_llenos {config : String → Option String}
    {fechas : List Fecha} {f : Fecha} :
    f ∈ get_dias_llenos config (.ok fechas) ↔
      f ∈ fechas ∧ f.weekday ≤ 5 ∧
        ∃ l, limite? config f.weekday = some l ∧ (fechas.count f : Int) ≥ l := by
  simp only [get_dias_llenos, List.mem_filterMap, List.mem_map]
  constructor
  · rintro ⟨par, ⟨g, hg, rfl⟩, hsel⟩
    have hgmem : g ∈ fechas := by
      have := (List.mem_insertionSort (r := fechaLe)).1 hg
      exact List.mem_dedup.1 this
    by_cases hw : g.weekday ≤ 5
    · simp only [hw, if_true] at hsel
      cases hlim : limite? config g.weekday with
      | none => simp [hlim] at hsel
      | some l =>
        simp only [hlim] at hsel
        by_cases hge : ((fechas.count g : Int) ≥ l)
        · simp only [hge, if_true, Option.some.injEq] at hsel
          subst hsel
          exact ⟨hgmem, hw, l, hlim, hge⟩
        · simp [hge] at hsel
    · simp [hw] at hsel
  · rintro ⟨hmem, hw, l, hlim, hge⟩
    refine ⟨(f, fechas.count f), ⟨f, ?_, rfl⟩, ?_⟩
    · exact (List.mem_insertionSort (r := fechaLe)).2 (List.mem_dedup.2 hmem)
    · simp [hw, hlim, hge]

/-- Session roles. -/
inductive Role
  | admin
  | secretaria
deriving DecidableEq, Repr

/-- Outcome of a booking handler.  `crashUnbound` models Python raising
`UnboundLocalError` (a local variable referenced before assignment), which
aborts the request with a server error instead of a normal response. -/
inductive RegResult
  | rechazadoSabado
  | rechazadoDomingo
  | rechazadoBloqueada
  | rechazadoLleno
  | registrada (c : Cita)
  | crashUnbound
  | noAutorizado
deriving DecidableEq, Repr

/-- The booking form fields the handlers read from `request.form`. -/
structure CitaForm where
  nombre : String
  telefono : String
  fecha : Fecha
  motivo : String
  numero_seguro_medico : String
  nombre_seguro_medico : String
deriving DecidableEq, Repr

/-- Store-assigned identifier for a freshly inserted row. -/
def freshId (st : Store) : Nat :=
  st.citas.foldl (fun acc c => max acc c.id) 0 + 1

/-- The insert payload built by the booking handlers (src/app.py lines 394-404
and 1514-1520, src/app_v3.py lines 247-257): no `orden`, `pagado` or
`fue_llamado` key is present in the payload, so the new row carries the store
defaults (orden absent, flags false). -/
def citaDeFormulario (i : Nat) (form : CitaForm) : Cita :=
  { id := i
    nombre := form.nombre
    telefono := form.telefono
    fecha := form.fecha
    motivo := form.motivo
    numero_seguro_medico := form.numero_seguro_medico
    nombre_seguro_medico := form.nombre_seguro_medico
    orden := none
    pagado := false
    fue_llamado := false }

/-- src/app_v3.py `registrar_cita` (route "/", lines 159-271), POST path.
`citasQuery` is the outcome of the citas select performed inside
`get_dias_llenos`.  The four checks of the first validation block each flash
and redirect; the later duplicated blocks re-check the weekend flags and the
blocked list before the insert. -/
def registrar_cita_v3 (st : Store) (citasQuery : Except String (List Fecha))
    (form : CitaForm) : RegResult × Store :=
  let config := get_configuracion st.configuracion
  let fechas_bloqueadas_manualmente := st.fechas_bloqueadas
  let dias_llenos := get_dias_llenos config citasQuery
  if config ("bloquear_sabados") = some ("true") ∧ form.fecha.weekday = 5 then
    (.rechazadoSabado, st)
  else if config ("bloquear_domingos") = some ("true") ∧ form.fecha.weekday = 6 then
    (.rechazadoDomingo, st)
  else if form.fecha ∈ fechas_bloqueadas_manualmente then
    (.rechazadoBloqueada, st)
  else if form.fecha ∈ dias_llenos then
    (.rechazadoLleno, st)
  else
    let fechas_bloqueadas := st.fechas_bloqueadas
    if config ("bloquear_sabados") = some ("true") ∧ form.fecha.weekday = 5 then
      (.rechazadoSabado, st)
    else if config ("bloquear_domingos") = some ("true") ∧ form.fecha.weekday = 6 then
      (.rechazadoDomingo, st)
    else if form.fecha ∈ fechas_bloqueadas then
      (.rechazadoBloqueada, st)
    else if form.fecha ∈ fechas_bloqueadas then
      (.rechazadoBloqueada, st)
    else
      let c := citaDeFormulario (freshId st) form
      (.registrada c, { st with citas := st.citas ++ [c] })

/-- src/app.py `registrar_cita` (route "/", lines 289-440), POST path.  Same
checks as the v3 handler, but every rejection branch of the first validation
block (lines 313-342) renders a template referencing the local
`fechas_bloqueadas`, which is assigned only at line 347: in Python each of
these branches raises `UnboundLocalError`. -/
def registrar_cita_v1 (st : Store) (citasQuery : Except String (List Fecha))
    (form : CitaForm) : RegResult × Store :=
  let config := get_configuracion st.configuracion
  let fechas_bloqueadas_manualmente := st.fechas_bloqueadas
  let dias_llenos := get_dias_llenos config citasQuery
  if config ("bloquear_sabados") = some ("true") ∧ form.fecha.weekday = 5 then
    (.crashUnbound, st)
  else if config ("bloquear_domingos") = some ("true") ∧ form.fecha.weekday = 6 then
    (.crashUnbound, st)
  else if form.fecha ∈ fechas_bloqueadas_manualmente then
    (.crashUnbound, st)
  else if form.fecha ∈ dias_llenos then
    (.crashUnbound, st)
  else
    let fechas_bloqueadas := st.fechas_bloqueadas
    if config ("bloquear_sabados") = some ("true") ∧ form.fecha.weekday = 5 then
      (.rechazadoSabado, st)
    else if config ("bloquear_domingos") = some ("true") ∧ form.fecha.weekday = 6 then
      (.rechazadoDomingo, st)
    else if form.fecha ∈ fechas_bloqueadas then
      (.rechazadoBloqueada, st)
    else if form.fecha ∈ fechas_bloqueadas then
      (.rechazadoBloqueada, st)
    else
      let c := citaDeFormulario (freshId st) form
      (.registrada c, { st with citas := st.citas ++ [c] })

/-- Result of a staff booking handler: the weekend hits are only warnings
(flash messages), the request continues. -/
structure AdminRegSalida where
  advertenciaSabado : Bool
  advertenciaDomingo : Bool
  resultado : RegResult
deriving DecidableEq, Repr

/-- src/app.py `registrar_cita_admin` (lines 1476-1542), POST path, including
the `role_required('admin', 'secretaria')` gate.  Weekend blackout hits only
flash a warning; a manually blocked date rejects; the `dias_llenos` check is
omitted on purpose ("SE OMITE LA VALIDACIÓN DE 'dias_llenos'"). -/
def registrar_cita_admin (role : Option Role) (st : Store) (form : CitaForm) :
    AdminRegSalida × Store :=
  if role = some Role.admin ∨ role = some Role.secretaria then
    let config := get_configuracion st.configuracion
    let fechas_bloqueadas := st.fechas_bloqueadas
    let aS := config ("bloquear_sabados") == some ("true") && form.fecha.weekday == 5
    let aD := config ("bloquear_domingos") == some ("true") && form.fecha.weekday == 6
    if form.fecha ∈ fechas_bloqueadas then
      ({ advertenciaSabado := aS, advertenciaDomingo := aD,
         resultado := .rechazadoBloqueada }, st)
    else
      let c := citaDeFormulario (freshId st) form
      ({ advertenciaSabado := aS, advertenciaDomingo := aD,
         resultado := .registrada c },
       { st with citas := st.citas ++ [c] })
  else
    ({ advertenciaSabado := false, advertenciaDomingo := false,
       resultado := .noAutorizado }, st)

/-- src/app.py `registrar_cita_secretaria` (lines 1544-1610), POST path: a
verbatim duplicate of the admin handler. -/
def registrar_cita_secretaria (role : Option Role) (st : Store) (form : CitaForm) :
    AdminRegSalida × Store :=
  if role = some Role.admin ∨ role = some Role.secretaria then
    let config := get_configuracion st.configuracion
    let fechas_bloqueadas := st.fechas_bloqueadas
    let aS := config ("bloquear_sabados") == some ("true") && form.fecha.weekday == 5
    let aD := config ("bloquear_domingos") == some ("true") && form.fecha.weekday == 6
    if form.fecha ∈ fechas_bloqueadas then
      ({ advertenciaSabado := aS, advertenciaDomingo := aD,
         resultado := .rechazadoBloqueada }, st)
    else
      let c := citaDeFormulario (freshId st) form
      ({ advertenciaSabado := aS, advertenciaDomingo := aD,
         resultado := .registrada c },
       { st with citas := st.citas ++ [c] })
  else
    ({ advertenciaSabado := false, advertenciaDomingo := false,
       resultado := .noAutorizado }, st)

/-- Outcome of a date-move handler. -/
inductive MoveResult
  | rechazadaNoDisponible
  | rechazadaSabado
  | rechazadaDomingo
  | rechazadaBloqueada
  | rechazadaPago
  | movida
  | errorCita
  | crashUnbound
deriving DecidableEq, Repr

/-- The `update citas set fecha = nueva where id = i` store call. -/
def actualizarFecha (citas : List Cita) (i : Nat) (nueva : Fecha) : List Cita :=
  citas.map (fun c => if c.id = i then { c with fecha := nueva } else c)

/-- src/app.py `mover_cita` (lines 631-745), POST path (admin): availability,
weekend and blocked checks, then the payment check (lines 682-690) before the
update.  A missing cita makes `.single()` raise, caught as `errorCita`. -/
def mover_cita_v1 (st : Store) (i : Nat) (nueva : Fecha) : MoveResult × Store :=
  let config := get_configuracion st.configuracion
  let fechas_bloqueadas := st.fechas_bloqueadas
  let fechas_bloqueadas_manualmente := st.fechas_bloqueadas
  let dias_llenos := get_dias_llenos config (.ok (st.citas.map (·.fecha)))
  if nueva ∈ fechas_bloqueadas_manualmente ∨ nueva ∈ dias_llenos then
    (.rechazadaNoDisponible, st)
  else if config ("bloquear_sabados") = some ("true") ∧ nueva.weekday = 5 then
    (.rechazadaSabado, st)
  else if config ("bloquear_domingos") = some ("true") ∧ nueva.weekday = 6 then
    (.rechazadaDomingo, st)
  else if nueva ∈ fechas_bloqueadas then
    (.rechazadaBloqueada, st)
  else if nueva ∈ fechas_bloqueadas then
    (.rechazadaBloqueada, st)
  else if (st.pagos.filter (fun p => p.cita_id == i)) ≠ [] then
    (.rechazadaPago, st)
  else
    match st.citas.find? (fun c => c.id == i) with
    | none => (.errorCita, st)
    | some _ => (.movida, { st with citas := actualizarFecha st.citas i nueva })

/-- src/app.py `secretaria_mover_cita` (lines 748-861), POST path: the payment
check sits at the end of the first validation block (lines 787-795), before
the second block performs the update. -/
def secretaria_mover_cita_v1 (st : Store) (i : Nat) (nueva : Fecha) :
    MoveResult × Store :=
  let config := get_configuracion st.configuracion
  let fechas_bloqueadas := st.fechas_bloqueadas
  let fechas_bloqueadas_manualmente := st.fechas_bloqueadas
  let dias_llenos := get_dias_llenos config (.ok (st.citas.map (·.fecha)))
  if nueva ∈ fechas_bloqueadas_manualmente ∨ nueva ∈ dias_llenos then
    (.rechazadaNoDisponible, st)
  else if config ("bloquear_sabados") = some ("true") ∧ nueva.weekday = 5 then
    (.rechazadaSabado, st)
  else if config ("bloquear_domingos") = some ("true") ∧ nueva.weekday = 6 then
    (.rechazadaDomingo, st)
  else if nueva ∈ fechas_bloqueadas then
    (.rechazadaBloqueada, st)
  else if (st.pagos.filter (fun p => p.cita_id == i)) ≠ [] then
    (.rechazadaPago, st)
  else if nueva ∈ fechas_bloqueadas then
    (.rechazadaBloqueada, st)
  else
    match st.citas.find? (fun c => c.id == i) with
    | none => (.errorCita, st)
    | some _ => (.movida, { st with citas := actualizarFecha st.citas i nueva })

/-- src/app_v2.py `mover_cita` (lines 242-299), POST path: this variant has no
payments table at all; weekend and blocked checks only, then the update is
performed directly (no fetch, no payment check). -/
def mover_cita_v2 (st : Store) (i : Nat) (nueva : Fecha) : MoveResult × Store :=
  let config := get_configuracion st.configuracion
  let fechas_bloqueadas := st.fechas_bloqueadas
  if config ("bloquear_sabados") = some ("true") ∧ nueva.weekday = 5 then
    (.rechazadaSabado, st)
  else if config ("bloquear_domingos") = some ("true") ∧ nueva.weekday = 6 then
    (.rechazadaDomingo, st)
  else if nueva ∈ fechas_bloqueadas then
    (.rechazadaBloqueada, st)
  else if nueva ∈ fechas_bloqueadas then
    (.rechazadaBloqueada, st)
  else
    (.movida, { st with citas := actualizarFecha st.citas i nueva })

/-- src/app_v3.py `mover_cita` (lines 394-476), POST path: the payment check
runs first (lines 406-414); after it, the first validation block reads
`nueva_fecha`, a local assigned only in the second block (line 450), so every
POST that passes the payment check raises `UnboundLocalError` at line 429. -/
def mover_cita_v3 (st : Store) (i : Nat) (nueva : Fecha) : MoveResult × Store :=
  if (st.pagos.filter (fun p => p.cita_id == i)) ≠ [] then
    (.rechazadaPago, st)
  else
    (.crashUnbound, st)

/-- One row update of the reorder loop, applied pointwise:
`update citas set orden = par.1 where id = par.2`. -/
def asignarOrdenPunto (par : Nat × Nat) (c : Cita) : Cita :=
  if c.id = par.2 then { c with orden := some (par.1 : Int) } else c

/-- One row update of the reorder loop over the whole table. -/
def asignarOrden (par : Nat × Nat) (citas : List Cita) : List Cita :=
  citas.map (asignarOrdenPunto par)

/-- src/app.py `actualizar_orden` (lines 600-628) = src/app_v3.py (lines
356-384): requires a session, rejects an empty id list, then assigns
`orden := index` for each cita id at its 0-based position, one independent
row update per id. -/
def actualizar_orden (usuario : Option String) (st : Store) (ids : List Nat) :
    Except String Store :=
  match usuario with
  | none => .error ("No autorizado")
  | some _ =>
    if ids.isEmpty then .error ("No se proporciono orden")
    else .ok { st with
      citas := (ids.enum).foldl (fun cs par => asignarOrden par cs) st.citas }

/-- Ascending comparison on the nullable `orden` column (store sort semantics;
rows without a value sort last). -/
def ordenLeB (a b : Option Int) : Bool :=
  match a, b with
  | _, none => true
  | none, some _ => false
  | some x, some y => x ≤ y

/-- The sort relation used when reading citas ordered by `orden`. -/
def ordenRel (a b : Cita) : Prop := ordenLeB a.orden b.orden = true

instance : DecidableRel ordenRel := fun a b =>
  inferInstanceAs (Decidable (_ = true))

instance : IsTotal Cita ordenRel := by
  constructor
  intro a b
  unfold ordenRel ordenLeB
  cases a.orden <;> cases b.orden <;> simp <;> omega

instance : IsTrans Cita ordenRel := by
  constructor
  intro a b c
  unfold ordenRel ordenLeB
  cases a.orden <;> cases b.orden <;> cases c.orden <;> simp <;> omega

/-- The admin panel read (src/app.py lines 584-595): the citas of one date,
ordered ascending by the `orden` column. -/
def leerOrdenado (st : Store) (d : Fecha) : List Cita :=
  List.insertionSort ordenRel (st.citas.filter (fun c => c.fecha == d))

/-- `announcement_queue.put(nombre)` (src/app.py lines 913 and 1143): append
the display name at the tail of the process-wide FIFO. -/
def anunciar (q : List String) (nombre : String) : List String := q ++ [nombre]

/-- One cycle of the stream generator (src/app.py lines 889-895): dequeue the
head and frame it as a `data:` event, or — when the queue stays empty for the
poll timeout — frame the keep-alive comment and leave the queue unchanged. -/
def stream_ciclo (q : List String) : String × List String :=
  match q with
  | nombre :: resto => ("data: " ++ nombre ++ "\n\n", resto)
  | [] => (": keep-alive\n\n", [])

/-- `k` consecutive cycles of the stream generator: the emitted frames in
order, and the remaining queue. -/
def stream_ciclos : Nat → List String → List String × List String
  | 0, q => ([], q)
  | k + 1, q =>
    let fq := stream_ciclo q
    let r := stream_ciclos k fq.2
    (fq.1 :: r.1, r.2)

/-- Events of the call-and-announce endpoint, in execution order. -/
inductive EventoLlamada
  | marcarLlamado (i : Nat)
  | encolar (nombre : String)
deriving DecidableEq, Repr

/-- src/app.py `llamar_y_marcar` (lines 1125-1148), guarded by
`role_required('admin')`: validates the payload, then (Paso A) updates
`fue_llamado` in the store and (Paso B) enqueues the name — both inside one
try, so a failing update jumps to the except branch before the enqueue.
`actualiza` is the outcome of the store update; the returned trace lists the
performed effects in order. -/
def llamar_y_marcar (role : Option Role) (citaId : Option Nat)
    (nombre : Option String) (actualiza : Except String Unit) :
    List EventoLlamada × Except String Unit :=
  match role with
  | some Role.admin =>
    match citaId, nombre with
    | some i, some n =>
      match actualiza with
      | .ok _ => ([.marcarLlamado i, .encolar n], .ok ())
      | .error e => ([], .error e)
    | _, _ => ([], .error ("Faltan datos"))
  | _ => ([], .error ("No autorizado"))

/-- Folding announcements into the FIFO appends them in order. -/
theorem foldl_anunciar : ∀ (nombres : List String) (q : List String),
    nombres.foldl anunciar q = q ++ nombres := by
  intro nombres
  induction nombres with
  | nil => intro q; simp
  | cons n resto ih =>
    intro q
    simp only [List.foldl_cons, ih, anunciar]
    simp

/-- Draining an empty queue yields only keep-alive frames. -/
theorem stream_ciclos_vacio (k : Nat) :
    stream_ciclos k [] = (List.replicate k (": keep-alive\n\n"), []) := by
  induction k with
  | zero => rfl
  | succ k ih =>
    simp only [stream_ciclos, stream_ciclo, ih]
    simp [List.replicate_succ]

/-- Full characterisation of `k` polls against a queue. -/
theorem stream_ciclos_spec : ∀ (k : Nat) (q : List String),
    stream_ciclos k q =
      ((q.take k).map (fun n => "data: " ++ n ++ "\n\n") ++
         List.replicate (k - q.length) (": keep-alive\n\n"),
       q.drop k) := by
  intro k
  induction k with
  | zero => intro q; simp [stream_ciclos]
  | succ k ih =>
    intro q
    cases q with
    | nil =>
      simp only [stream_ciclos, stream_ciclo]
      rw [stream_ciclos_vacio k]
      simp [List.replicate_succ]
    | cons n resto =>
      simp only [stream_ciclos, stream_ciclo, ih resto]
      simp [Nat.succ_sub_succ]

/-- C8: every announced name is delivered to the stream consumer exactly once
and in FIFO order: after announcing `nombres` onto the empty queue, `k` polls
yield the first `k` names as `data:` frames in announcement order, followed by
keep-alive comment frames once the queue is empty (never an error, never a
re-delivery), with the remaining queue holding the undelivered tail.  In
particular announcing "Maria Lopez" then polling twice delivers it exactly
once and then a keep-alive. -/
theorem claim8_fifo :
    (∀ (nombres : List String) (k : Nat),
       stream_ciclos k (nombres.foldl anunciar []) =
         ((nombres.take k).map (fun n => "data: " ++ n ++ "\n\n") ++
            List.replicate (k - nombres.length) (": keep-alive\n\n"),
          nombres.drop k)) ∧
    stream_ciclos 2 (anunciar [] ("Maria Lopez")) =
      (["data: Maria Lopez\n\n", ": keep-alive\n\n"], []) := by
  constructor
  · intro nombres k
    rw [foldl_anunciar, List.nil_append, stream_ciclos_spec]
  · decide

/-- C9: the call-and-announce endpoint enqueues the name only in a run where
the store update durably marking the cita as called succeeded, and the trace
records the mark strictly before the enqueue; when the update fails, nothing
is ever enqueued. -/
theorem claim9_llamar (role : Option Role) (citaId : Option Nat)
    (nombre : Option String) (actualiza : Except String Unit) (n : String)
    (h : EventoLlamada.encolar n ∈ (llamar_y_marcar role citaId nombre actualiza).1) :
    ∃ i, role = some Role.admin ∧ citaId = some i ∧ nombre = some n ∧
      actualiza = Except.ok () ∧
      (llamar_y_marcar role citaId nombre actualiza).1 =
        [EventoLlamada.marcarLlamado i, EventoLlamada.encolar n] := by
  match role with
  | none => simp [llamar_y_marcar] at h
  | some Role.secretaria => simp [llamar_y_marcar] at h
  | some Role.admin =>
    match citaId, nombre with
    | none, _ => simp [llamar_y_marcar] at h
    | some i, none => simp [llamar_y_marcar] at h
    | some i, some m =>
      match actualiza with
      | .error e => simp [llamar_y_marcar] at h
      | .ok _ =>
        simp only [llamar_y_marcar, List.mem_cons, List.mem_singleton] at h
        rcases h with h | h | h
        · cases h
        · cases h
          exact ⟨i, rfl, rfl, rfl, rfl, rfl⟩
        · cases h

/-- Witness for C9 at a concrete input. -/
theorem claim9_llamar_witness :
    ∃ i, some Role.admin = some Role.admin ∧ (some 7 : Option Nat) = some i ∧
      (some ("Ana") : Option String) = some ("Ana") ∧
      (Except.ok () : Except String Unit) = Except.ok () ∧
      (llamar_y_marcar (some Role.admin) (some 7) (some ("Ana")) (Except.ok ())).1 =
        [EventoLlamada.marcarLlamado i, EventoLlamada.encolar ("Ana")] :=
  claim9_llamar (some Role.admin) (some 7) (some ("Ana")) (Except.ok ()) ("Ana")
    (by decide)

/-- C10: `get_dias_llenos` is fail-open: a failing citas query makes it return
the empty list (the exception is caught, never propagated), so under a store
failure no date is reported full and the public booking validation of either
public handler can never reject a date as full. -/
theorem claim10_fail_open :
    (∀ (config : String → Option String) (e : String),
        get_dias_llenos config (.error e) = []) ∧
    (∀ (st : Store) (e : String) (form : CitaForm),
        (registrar_cita_v3 st (.error e) form).1 ≠ RegResult.rechazadoLleno) ∧
    (∀ (st : Store) (e : String) (form : CitaForm),
        (registrar_cita_v1 st (.error e) form).1 ≠ RegResult.rechazadoLleno) := by
  refine ⟨fun config e => rfl, ?_, ?_⟩
  · intro st e form
    simp only [registrar_cita_v3, get_dias_llenos]
    split_ifs <;> simp_all
  · intro st e form
    simp only [registrar_cita_v1, get_dias_llenos]
    split_ifs <;> simp_all

/-- A concrete cita row used by the concrete-input theorems. -/
def citaEj (i : Nat) (f : Fecha) : Cita :=
  { id := i
    nombre := "Paciente"
    telefono := "8090000000"
    fecha := f
    motivo := "ginecologica"
    numero_seguro_medico := ""
    nombre_seguro_medico := ""
    orden := none
    pagado := false
    fue_llamado := false }

/-- Store for C2: two citas on Monday 2020-01-06 (a long-elapsed date) and a
Monday capacity limit of 2. -/
def stC2 : Store :=
  { citas := [citaEj 1 (Fecha.mk 2020 1 6), citaEj 2 (Fecha.mk 2020 1 6)]
    fechas_bloqueadas := []
    pagos := []
    configuracion := [("max_pacientes_lunes", "2")] }

/-- C2 (refuted, code bug): the full-dates computation used by the booking and
reschedule paths has no reference-date filter (its docstring claims "Solo
considera fechas futuras" but the select fetches every cita), so 2020-01-06 —
a Monday strictly before the reference date 2026-10-12 — is reported full, and
the admin reschedule path rejects a move to that elapsed date as
unavailable. -/
theorem claim2_pasado_lleno :
    fechaLt (Fecha.mk 2020 1 6) (Fecha.mk 2026 10 12) ∧
    Fecha.mk 2020 1 6 ∈
      get_dias_llenos (get_configuracion stC2.configuracion)
        (.ok (stC2.citas.map (·.fecha))) ∧
    (mover_cita_v1 stC2 1 (Fecha.mk 2020 1 6)).1 = MoveResult.rechazadaNoDisponible := by
  decide

/-- Store for C4: Saturday and Sunday blackouts on, Saturday capacity 1, one
cita on Saturday 2026-10-17, and both weekend dates manually blocked. -/
def stC4 : Store :=
  { citas := [citaEj 1 (Fecha.mk 2026 10 17)]
    fechas_bloqueadas := [Fecha.mk 2026 10 17, Fecha.mk 2026 10 18]
    pagos := []
    configuracion :=
      [("bloquear_sabados", "true"), ("bloquear_domingos", "true"),
       ("max_pacientes_sabado", "1")] }

/-- Store for C4's blocked/full ordering checks: no blackout flags, Monday
capacity 1, one cita on Monday 2026-10-19, Monday manually blocked. -/
def stC4b : Store :=
  { citas := [citaEj 1 (Fecha.mk 2026 10 19)]
    fechas_bloqueadas := [Fecha.mk 2026 10 19]
    pagos := []
    configuracion := [("max_pacientes_lunes", "1")] }

/-- A booking form for a given date. -/
def formEj (f : Fecha) : CitaForm :=
  { nombre := "Paciente"
    telefono := "8090000000"
    fecha := f
    motivo := "ginecologica"
    numero_seguro_medico := ""
    nombre_seguro_medico := "" }

/-- C4 (code bug in the app.py variant, behaviour as claimed in the app_v3
variant): on a Saturday that is simultaneously blacked out, manually blocked
and full by capacity, the v3 public handler rejects it normally with the
Saturday reason (the first failing rule wins) and inserts nothing, while the
app.py handler raises UnboundLocalError (all four rejection branches of its
first validation block reference `fechas_bloqueadas` before assignment)
instead of returning a normal rejection.  The remaining conjuncts check the
fail-fast order of the v3 handler: Sunday blackout before blocked, blocked
before full, and full as the last rule. -/
theorem claim4_rechazos :
    (registrar_cita_v1 stC4 (.ok (stC4.citas.map (·.fecha)))
        (formEj (Fecha.mk 2026 10 17))).1 = RegResult.crashUnbound ∧
    registrar_cita_v3 stC4 (.ok (stC4.citas.map (·.fecha)))
        (formEj (Fecha.mk 2026 10 17)) = (RegResult.rechazadoSabado, stC4) ∧
    registrar_cita_v3 stC4 (.ok (stC4.citas.map (·.fecha)))
        (formEj (Fecha.mk 2026 10 18)) = (RegResult.rechazadoDomingo, stC4) ∧
    registrar_cita_v3 stC4b (.ok (stC4b.citas.map (·.fecha)))
        (formEj (Fecha.mk 2026 10 19)) = (RegResult.rechazadoBloqueada, stC4b) ∧
    registrar_cita_v3 { stC4b with fechas_bloqueadas := [] }
        (.ok (stC4b.citas.map (·.fecha)))
        (formEj (Fecha.mk 2026 10 19)) =
      (RegResult.rechazadoLleno, { stC4b with fechas_bloqueadas := [] }) ∧
    (registrar_cita_v1 stC4b (.ok (stC4b.citas.map (·.fecha)))
        (formEj (Fecha.mk 2026 10 19))).1 = RegResult.crashUnbound := by
  decide

/-- Store for C5: one cita on Monday 2026-10-19 with a recorded payment. -/
def stC5 : Store :=
  { citas := [citaEj 1 (Fecha.mk 2026 10 19)]
    fechas_bloqueadas := []
    pagos := [{ id := 1, cita_id := 1 }]
    configuracion := [] }

/-- C5 (counterexample): the app_v2 variant's admin date-move path performs no
payment check: cita 1 has a recorded payment, yet moving it to the free
Tuesday 2026-10-20 succeeds and the stored date changes — refuting "the
payment check is enforced before the mutation on every date-move path". -/
theorem claim5_counterexample :
    stC5.pagos.filter (fun p => p.cita_id == 1) ≠ [] ∧
    stC5.citas.map (·.fecha) = [Fecha.mk 2026 10 19] ∧
    (mover_cita_v2 stC5 1 (Fecha.mk 2026 10 20)).1 = MoveResult.movida ∧
    (mover_cita_v2 stC5 1 (Fecha.mk 2026 10 20)).2.citas.map (·.fecha) =
      [Fecha.mk 2026 10 20] := by
  decide

/-- C5 (amended): on the app.py admin and secretaria date-move paths and on
the app_v3 path, a date-move request for an appointment with at least one
recorded payment is always refused with a user-visible reason — never a
successful move, never a store error, never a crash — and the citas table is
left unchanged; the app_v2 variant's move path, by contrast, performs no
payment check (see the counterexample). -/
theorem claim5_pago_bloquea_move (st : Store) (i : Nat) (nueva : Fecha)
    (hpago : st.pagos.filter (fun p => p.cita_id == i) ≠ []) :
    ((mover_cita_v1 st i nueva).1 ≠ MoveResult.movida ∧
     (mover_cita_v1 st i nueva).1 ≠ MoveResult.errorCita ∧
     (mover_cita_v1 st i nueva).1 ≠ MoveResult.crashUnbound ∧
     (mover_cita_v1 st i nueva).2 = st) ∧
    ((secretaria_mover_cita_v1 st i nueva).1 ≠ MoveResult.movida ∧
     (secretaria_mover_cita_v1 st i nueva).1 ≠ MoveResult.errorCita ∧
     (secretaria_mover_cita_v1 st i nueva).1 ≠ MoveResult.crashUnbound ∧
     (secretaria_mover_cita_v1 st i nueva).2 = st) ∧
    mover_cita_v3 st i nueva = (MoveResult.rechazadaPago, st) := by
  refine ⟨?_, ?_, ?_⟩
  · simp only [mover_cita_v1]
    split_ifs <;> simp_all
  · simp only [secretaria_mover_cita_v1]
    split_ifs <;> simp_all
  · simp only [mover_cita_v3]
    split_ifs <;> simp_all

/-- Witness for C5's amended theorem at a concrete input. -/
theorem claim5_pago_bloquea_move_witness :
    (mover_cita_v1 stC5 1 (Fecha.mk 2026 10 20)).1 ≠ MoveResult.movida ∧
    (mover_cita_v1 stC5 1 (Fecha.mk 2026 10 20)).2 = stC5 :=
  ⟨(claim5_pago_bloquea_move stC5 1 (Fecha.mk 2026 10 20) (by decide)).1.1,
   (claim5_pago_bloquea_move stC5 1 (Fecha.mk 2026 10 20) (by decide)).1.2.2.2⟩

/-- Store for C6: two citas already on Monday 2026-10-19. -/
def stC6 : Store :=
  { citas := [citaEj 1 (Fecha.mk 2026 10 19), citaEj 2 (Fecha.mk 2026 10 19)]
    fechas_bloqueadas := []
    pagos := []
    configuracion := [] }

/-- C6 (counterexample): the staff booking path inserts its payload without
any `orden` key: with two citas already booked on the form's date, the claim
requires the new appointment to be created with order 2 (the count of existing
appointments for that date), but the inserted row carries no order value at
all. -/
theorem claim6_counterexample :
    (registrar_cita_admin (some Role.admin) stC6
        (formEj (Fecha.mk 2026 10 19))).1.resultado =
      RegResult.registrada (citaDeFormulario 3 (formEj (Fecha.mk 2026 10 19))) ∧
    (stC6.citas.filter (fun c => c.fecha == (formEj (Fecha.mk 2026 10 19)).fecha)).length
      = 2 ∧
    (citaDeFormulario 3 (formEj (Fecha.mk 2026 10 19))).orden ≠ some 2 := by
  decide

/-- C6 (amended): no appointment-creation path assigns an order value at
creation time: every appointment registered through the public handlers (v1
and v3) or the staff handlers carries `orden = none` in its insert payload
(the store default); order values are only ever written by the reorder
operation `actualizar_orden`. -/
theorem claim6_orden_no_asignada (role : Option Role) (st : Store)
    (q : Except String (List Fecha)) (form : CitaForm) (c : Cita) :
    ((registrar_cita_v3 st q form).1 = RegResult.registrada c → c.orden = none) ∧
    ((registrar_cita_v1 st q form).1 = RegResult.registrada c → c.orden = none) ∧
    ((registrar_cita_admin role st form).1.resultado = RegResult.registrada c →
       c.orden = none) ∧
    ((registrar_cita_secretaria role st form).1.resultado = RegResult.registrada c →
       c.orden = none) := by
  refine ⟨?_, ?_, ?_, ?_⟩
  · simp only [registrar_cita_v3]
    split_ifs <;> intro h <;>
      first
      | (cases h; rfl)
      | simp_all [citaDeFormulario]
  · simp only [registrar_cita_v1]
    split_ifs <;> intro h <;>
      first
      | (cases h; rfl)
      | simp_all [citaDeFormulario]
  · simp only [registrar_cita_admin]
    split_ifs <;> intro h <;>
      first
      | (cases h; rfl)
      | simp_all [citaDeFormulario]
  · simp only [registrar_cita_secretaria]
    split_ifs <;> intro h <;>
      first
      | (cases h; rfl)
      | simp_all [citaDeFormulario]

/-- Witness for C6's amended theorem at a concrete input. -/
theorem claim6_orden_no_asignada_witness :
    (citaDeFormulario 3 (formEj (Fecha.mk 2026 10 19))).orden = none :=
  (claim6_orden_no_asignada (some Role.admin) stC6 (.ok [])
      (formEj (Fecha.mk 2026 10 19))
      (citaDeFormulario 3 (formEj (Fecha.mk 2026 10 19)))).2.2.1 (by decide)

/-- The reorder loop's per-row table updates act pointwise on each cita. -/
theorem foldl_asignar (ups : List (Nat × Nat)) :
    ∀ cs : List Cita,
      ups.foldl (fun cs par => asignarOrden par cs) cs =
        cs.map (fun c => ups.foldl (fun c par => asignarOrdenPunto par c) c) := by
  induction ups with
  | nil =>
    intro cs
    simp
  | cons u us ih =>
    intro cs
    rw [List.foldl_cons, ih (asignarOrden u cs)]
    show (cs.map (asignarOrdenPunto u)).map _ = _
    rw [List.map_map]
    rfl

/-- A cita whose id does not occur in the id list is untouched by the reorder
updates. -/
theorem foldl_punto_no_mem (ids : List Nat) :
    ∀ (s : Nat) (c : Cita), c.id ∉ ids →
      (List.enumFrom s ids).foldl (fun c par => asignarOrdenPunto par c) c = c := by
  induction ids with
  | nil =>
    intro s c _
    rfl
  | cons i resto ih =>
    intro s c hc
    simp only [List.enumFrom, List.foldl_cons]
    have hne : c.id ≠ i := fun h => hc (h ▸ List.mem_cons_self i resto)
    have hstep : asignarOrdenPunto (s, i) c = c := by
      unfold asignarOrdenPunto
      exact if_neg hne
    rw [hstep]
    exact ih (s + 1) c (fun h => hc (List.mem_cons_of_mem i h))

/-- A cita whose id occurs in a duplicate-free id list ends with orden equal
to the offset plus the id's index in the list. -/
theorem foldl_punto_mem (ids : List Nat) :
    ∀ (s : Nat) (c : Cita), ids.Nodup → c.id ∈ ids →
      (List.enumFrom s ids).foldl (fun c par => asignarOrdenPunto par c) c =
        { c with orden := some ((s + ids.indexOf c.id : Nat) : Int) } := by
  induction ids with
  | nil =>
    intro s c _ hc
    cases hc
  | cons i resto ih =>
    intro s c hnd hc
    simp only [List.enumFrom, List.foldl_cons]
    by_cases hci : c.id = i
    · have hstep : asignarOrdenPunto (s, i) c = { c with orden := some (s : Int) } := by
        unfold asignarOrdenPunto
        exact if_pos hci
      rw [hstep]
      have hni : ({ c with orden := some (s : Int) } : Cita).id ∉ resto := by
        show c.id ∉ resto
        rw [hci]
        exact (List.nodup_cons.1 hnd).1
      rw [foldl_punto_no_mem resto (s + 1) _ hni]
      have hidx : List.indexOf c.id (i :: resto) = 0 := by
        rw [hci]
        exact List.indexOf_cons_self i resto
      rw [hidx]
      simp
    · have hstep : asignarOrdenPunto (s, i) c = c := by
        unfold asignarOrdenPunto
        exact if_neg hci
      rw [hstep]
      have hcr : c.id ∈ resto := by
        cases List.mem_cons.1 hc with
        | inl h => exact absurd h hci
        | inr h => exact h
      rw [ih (s + 1) c (List.nodup_cons.1 hnd).2 hcr]
      have hidx : List.indexOf c.id (i :: resto) = List.indexOf c.id resto + 1 :=
        List.indexOf_cons_ne resto (fun h => hci h.symm)
      have harith : s + 1 + List.indexOf c.id resto = s + List.indexOf c.id (i :: resto) := by
        rw [hidx]
        omega
      rw [harith]

/-- The reorder updates change neither a cita's id nor its fecha. -/
theorem foldl_punto_id_fecha (ups : List (Nat × Nat)) :
    ∀ c : Cita,
      (ups.foldl (fun c par => asignarOrdenPunto par c) c).id = c.id ∧
      (ups.foldl (fun c par => asignarOrdenPunto par c) c).fecha = c.fecha := by
  induction ups with
  | nil =>
    intro c
    exact ⟨rfl, rfl⟩
  | cons u us ih =>
    intro c
    simp only [List.foldl_cons]
    have h1 : (asignarOrdenPunto u c).id = c.id := by
      unfold asignarOrdenPunto
      split <;> rfl
    have h2 : (asignarOrdenPunto u c).fecha = c.fecha := by
      unfold asignarOrdenPunto
      split <;> rfl
    obtain ⟨ia, fa⟩ := ih (asignarOrdenPunto u c)
    exact ⟨ia.trans h1, fa.trans h2⟩

/-- In a duplicate-free list, mapping every element to its own index gives
exactly the index range. -/
theorem map_indexOf_self (ids : List Nat) (hnd : ids.Nodup) :
    ids.map (fun i => ids.indexOf i) = List.range ids.length := by
  apply List.ext_getElem
  · simp
  · intro k h1 h2
    simp only [List.getElem_map, List.getElem_range]
    exact List.indexOf_getElem hnd k (by simpa using h1)

/-- C7: reorder round-trip.  If `ids` is the complete list of the citas of
date `d` (a permutation of their ids; global ids are duplicate-free), then
after `actualizar_orden` assigns orden := 0-based index to each id, reading
that date's citas ordered ascending by orden returns them exactly in the
supplied sequence. -/
theorem claim7_reorden (st : Store) (u : String) (ids : List Nat) (d : Fecha)
    (st' : Store)
    (hperm : List.Perm ids ((st.citas.filter (fun c => c.fecha == d)).map (·.id)))
    (hnodup : (st.citas.map (·.id)).Nodup)
    (hok : actualizar_orden (some u) st ids = .ok st') :
    (leerOrdenado st' d).map (·.id) = ids := by
  -- unpack the successful reorder
  have hne : ids.isEmpty = false := by
    cases h : ids.isEmpty
    · rfl
    · rw [actualizar_orden] at hok
      simp [h] at hok
  have hst' : st' =
      { st with citas :=
          (List.enumFrom 0 ids).foldl (fun cs par => asignarOrden par cs) st.citas } := by
    rw [actualizar_orden] at hok
    simp only [hne, Bool.false_eq_true, if_false] at hok
    exact (Except.ok.inj hok).symm
  subst hst'
  -- abbreviations
  have hcitas' : (List.enumFrom 0 ids).foldl (fun cs par => asignarOrden par cs) st.citas =
      st.citas.map
        (fun c => (List.enumFrom 0 ids).foldl (fun c par => asignarOrdenPunto par c) c) :=
    foldl_asignar (List.enumFrom 0 ids) st.citas
  set punto : Cita → Cita :=
    fun c => (List.enumFrom 0 ids).foldl (fun c par => asignarOrdenPunto par c) c
    with hpunto
  set fl0 := st.citas.filter (fun c => c.fecha == d) with hfl0
  -- ids are duplicate-free
  have hnd_fl : (fl0.map (·.id)).Nodup :=
    hnodup.sublist ((List.filter_sublist st.citas).map (·.id))
  have hnd_ids : ids.Nodup := (hperm.nodup_iff).2 hnd_fl
  -- the filtered updated citas are the pointwise-updated originals
  have hfecha : ∀ c : Cita, (punto c).fecha = c.fecha :=
    fun c => (foldl_punto_id_fecha (List.enumFrom 0 ids) c).2
  have hid : ∀ c : Cita, (punto c).id = c.id :=
    fun c => (foldl_punto_id_fecha (List.enumFrom 0 ids) c).1
  have hfiltro : (st.citas.map punto).filter (fun c => c.fecha == d) = fl0.map punto := by
    rw [List.filter_map]
    congr 1
    apply List.filter_congr
    intro c _
    simp [Function.comp, hfecha c]
  -- every updated cita of the date carries orden = index of its id
  have horden : ∀ c0 : Cita, c0 ∈ fl0 →
      (punto c0).orden = some ((ids.indexOf c0.id : Nat) : Int) := by
    intro c0 hc0
    have hidmem : c0.id ∈ ids :=
      hperm.mem_iff.2 (List.mem_map_of_mem _ hc0)
    show ((List.enumFrom 0 ids).foldl (fun c par => asignarOrdenPunto par c) c0).orden =
      some ((ids.indexOf c0.id : Nat) : Int)
    rw [foldl_punto_mem ids 0 c0 hnd_ids hidmem]
    simp
  -- the sorted read
  set S := List.insertionSort ordenRel (fl0.map punto) with hS
  have hgoalS : leerOrdenado
      { st with citas :=
          (List.enumFrom 0 ids).foldl (fun cs par => asignarOrden par cs) st.citas } d
      = S := by
    rw [leerOrdenado]
    simp only [hcitas', hfiltro, hS]
  have hSperm : List.Perm S (fl0.map punto) := List.perm_insertionSort _ _
  have hSsort : List.Sorted ordenRel S := List.sorted_insertionSort _ _
  -- indices of the elements of S
  have hordenS : ∀ c ∈ S, c.orden = some ((ids.indexOf c.id : Nat) : Int) := by
    intro c hc
    obtain ⟨c0, hc0, rfl⟩ := List.mem_map.1 (hSperm.mem_iff.1 hc)
    rw [horden c0 hc0, hid c0]
  have hidS : ∀ c ∈ S, c.id ∈ ids := by
    intro c hc
    obtain ⟨c0, hc0, rfl⟩ := List.mem_map.1 (hSperm.mem_iff.1 hc)
    rw [hid c0]
    exact hperm.mem_iff.2 (List.mem_map_of_mem _ hc0)
  -- mapping to indices is sorted and a permutation of the range
  have hpair : (S.map (fun c => ids.indexOf c.id)).Pairwise (· ≤ ·) := by
    rw [List.pairwise_map]
    refine List.Pairwise.imp_of_mem ?_ hSsort
    intro a b ha hb hr
    have hoa := hordenS a ha
    have hob := hordenS b hb
    have : ((ids.indexOf a.id : Nat) : Int) ≤ ((ids.indexOf b.id : Nat) : Int) := by
      have hr' : ordenLeB a.orden b.orden = true := hr
      rw [hoa, hob] at hr'
      simpa [ordenLeB] using hr'
    exact_mod_cast this
  have hFperm : List.Perm (S.map (fun c => ids.indexOf c.id)) (List.range ids.length) := by
    have h1 : List.Perm (S.map (fun c => ids.indexOf c.id))
        ((fl0.map punto).map (fun c => ids.indexOf c.id)) := hSperm.map _
    have h2 : (fl0.map punto).map (fun c => ids.indexOf c.id) =
        (fl0.map (·.id)).map (fun i => ids.indexOf i) := by
      simp only [List.map_map]
      apply List.map_congr_left
      intro c _
      simp [Function.comp, hid c]
    have h3 : List.Perm ((fl0.map (·.id)).map (fun i => ids.indexOf i))
        (ids.map (fun i => ids.indexOf i)) := (hperm.map _).symm
    rw [← map_indexOf_self ids hnd_ids]
    exact (h1.trans (h2 ▸ h3))
  have hsorted_range : List.Sorted (· ≤ ·) (List.range ids.length) :=
    (List.pairwise_lt_range _).imp (fun h => Nat.le_of_lt h)
  have hEq : S.map (fun c => ids.indexOf c.id) = List.range ids.length :=
    List.eq_of_perm_of_sorted hFperm hpair hsorted_range
  -- lengths agree
  have hlen : S.length = ids.length := by
    have h1 := hSperm.length_eq
    have h2 := hperm.length_eq
    simp only [List.length_map] at h1 h2
    omega
  -- conclude elementwise
  rw [hgoalS]
  apply List.ext_getElem
  · simp [hlen]
  · intro k h1 h2
    have hk : k < S.length := by simpa using h1
    have hFk : ids.indexOf (S[k].id) = k := by
      have h5 := congrArg (fun l => l[k]?) hEq
      simp only at h5
      rw [List.getElem?_eq_getElem
            (show k < (S.map (fun c => ids.indexOf c.id)).length by simpa using hk),
          List.getElem?_range (by simpa [hlen] using hk)] at h5
      simpa using h5
    have hmemk : (S[k]).id ∈ ids := hidS _ (List.getElem_mem hk)
    have hlt : ids.indexOf (S[k].id) < ids.length := List.indexOf_lt_length.2 hmemk
    have h7 : ids[ids.indexOf (S[k].id)]? = some (S[k].id) := by
      rw [List.getElem?_eq_getElem hlt, List.getElem_indexOf hlt]
    rw [hFk, List.getElem?_eq_getElem h2] at h7
    simp only [List.getElem_map]
    exact (Option.some_inj.1 h7).symm

/-- Store for the C7 witness: citas 1, 2, 3 all on Monday 2026-10-19. -/
def stC7 : Store :=
  { citas := [citaEj 1 (Fecha.mk 2026 10 19), citaEj 2 (Fecha.mk 2026 10 19),
              citaEj 3 (Fecha.mk 2026 10 19)]
    fechas_bloqueadas := []
    pagos := []
    configuracion := [] }

/-- The stC7 store after reordering with ids [3, 1, 2]. -/
def stC7' : Store :=
  { citas :=
      [{ citaEj 1 (Fecha.mk 2026 10 19) with orden := some 1 },
       { citaEj 2 (Fecha.mk 2026 10 19) with orden := some 2 },
       { citaEj 3 (Fecha.mk 2026 10 19) with orden := some 0 }]
    fechas_bloqueadas := []
    pagos := []
    configuracion := [] }

/-- Witness for C7 at a concrete input: reordering the three citas of
2026-10-19 as [3, 1, 2] and reading back ordered by orden yields 3, 1, 2. -/
theorem claim7_reorden_witness :
    (leerOrdenado stC7' (Fecha.mk 2026 10 19)).map (·.id) = [3, 1, 2] :=
  claim7_reorden stC7 "ana" [3, 1, 2] (Fecha.mk 2026 10 19) stC7'
    (by decide) (by decide) rfl

/-- C3: staff-initiated booking.  For either staff role: a date that is full
by capacity but not manually blocked is nevertheless registered (the capacity
check is bypassed — indeed the rejection outcome does not depend on the citas
table at all); a manually blocked date is rejected with no insert, regardless
of role; and a weekend-blackout hit only sets a warning flag — on an unblocked
date the booking still succeeds. -/
theorem claim3_staff (role : Option Role) (st : Store) (form : CitaForm)
    (hrole : role = some Role.admin ∨ role = some Role.secretaria) :
    (form.fecha ∉ st.fechas_bloqueadas →
      form.fecha ∈ get_dias_llenos (get_configuracion st.configuracion)
        (.ok (st.citas.map (·.fecha))) →
      (∃ c, (registrar_cita_admin role st form).1.resultado = RegResult.registrada c ∧
        (registrar_cita_admin role st form).2.citas = st.citas ++ [c]) ∧
      (∃ c, (registrar_cita_secretaria role st form).1.resultado = RegResult.registrada c ∧
        (registrar_cita_secretaria role st form).2.citas = st.citas ++ [c])) ∧
    (form.fecha ∈ st.fechas_bloqueadas →
      (registrar_cita_admin role st form).1.resultado = RegResult.rechazadoBloqueada ∧
      (registrar_cita_admin role st form).2 = st ∧
      (registrar_cita_secretaria role st form).1.resultado = RegResult.rechazadoBloqueada ∧
      (registrar_cita_secretaria role st form).2 = st) ∧
    (∀ citas2 : List Cita,
      ((registrar_cita_admin role { st with citas := citas2 } form).1.resultado =
          RegResult.rechazadoBloqueada ↔
        (registrar_cita_admin role st form).1.resultado = RegResult.rechazadoBloqueada)) ∧
    ((get_configuracion st.configuracion ("bloquear_sabados") = some ("true") ∧
        form.fecha.weekday = 5) →
      (registrar_cita_admin role st form).1.advertenciaSabado = true ∧
      (form.fecha ∉ st.fechas_bloqueadas →
        ∃ c, (registrar_cita_admin role st form).1.resultado = RegResult.registrada c)) := by
  refine ⟨?_, ?_, ?_, ?_⟩
  · intro hnb _
    constructor
    · simp only [registrar_cita_admin, if_pos hrole, if_neg hnb]
      exact ⟨citaDeFormulario (freshId st) form, rfl, rfl⟩
    · simp only [registrar_cita_secretaria, if_pos hrole, if_neg hnb]
      exact ⟨citaDeFormulario (freshId st) form, rfl, rfl⟩
  · intro hb
    simp only [registrar_cita_admin, registrar_cita_secretaria, if_pos hrole, if_pos hb]
    exact ⟨by simp, by simp, by simp, by simp⟩
  · intro citas2
    simp only [registrar_cita_admin, if_pos hrole]
    by_cases hb : form.fecha ∈ st.fechas_bloqueadas <;>
      simp [hb]
  · intro hsab
    constructor
    · simp only [registrar_cita_admin, if_pos hrole]
      by_cases hb : form.fecha ∈ st.fechas_bloqueadas <;>
        simp [hb, hsab.1, hsab.2]
    · intro hnb
      simp only [registrar_cita_admin, if_pos hrole, if_neg hnb]
      exact ⟨citaDeFormulario (freshId st) form, rfl⟩

/-- Store for the C3 witness: Monday 2026-10-19 is full (limit 1, one cita)
and the Saturday blackout flag is on. -/
def stC3 : Store :=
  { citas := [citaEj 1 (Fecha.mk 2026 10 19)]
    fechas_bloqueadas := []
    pagos := []
    configuracion := [("bloquear_sabados", "true"), ("max_pacientes_lunes", "1")] }

/-- Witness for C3 at a concrete input: the full Monday is still registered by
the staff handler. -/
theorem claim3_staff_witness :
    ∃ c, (registrar_cita_admin (some Role.admin) stC3
        (formEj (Fecha.mk 2026 10 19))).1.resultado = RegResult.registrada c ∧
      (registrar_cita_admin (some Role.admin) stC3
        (formEj (Fecha.mk 2026 10 19))).2.citas = stC3.citas ++ [c] :=
  ((claim3_staff (some Role.admin) stC3 (formEj (Fecha.mk 2026 10 19))
      (Or.inl rfl)).1 (by decide) (by decide)).1

/-- C1: capacity boundary behaviour.  For a date whose weekday has a valid
configured limit `L` (which entails Monday-to-Saturday), and which is neither
weekend-blacked-out nor manually blocked: with exactly `L - 1` citas booked on
it the date is not reported full and the public booking succeeds on both
public handlers (the new cita is appended); with `L` or more citas the date is
reported full, the v3 public handler rejects the booking as full leaving the
store unchanged, and the app.py public handler likewise inserts nothing (its
capacity branch diverts the request before any insert).  The hypothesis
`1 ≤ L` is forced by the claim's own first scenario: a store state with
exactly `L - 1` appointments exists only for `L ≥ 1`. -/
theorem claim1_capacidad (st : Store) (form : CitaForm) (L : Int) (hL : 1 ≤ L)
    (hlim : limite? (get_configuracion st.configuracion) form.fecha.weekday = some L)
    (hsab : ¬(get_configuracion st.configuracion ("bloquear_sabados") = some ("true") ∧
      form.fecha.weekday = 5))
    (hdom : ¬(get_configuracion st.configuracion ("bloquear_domingos") = some ("true") ∧
      form.fecha.weekday = 6))
    (hblq : form.fecha ∉ st.fechas_bloqueadas) :
    ((((st.citas.map (·.fecha)).count form.fecha : Int) = L - 1 →
      form.fecha ∉ get_dias_llenos (get_configuracion st.configuracion)
        (.ok (st.citas.map (·.fecha))) ∧
      (∃ c, registrar_cita_v3 st (.ok (st.citas.map (·.fecha))) form =
        (RegResult.registrada c, { st with citas := st.citas ++ [c] })) ∧
      (∃ c, registrar_cita_v1 st (.ok (st.citas.map (·.fecha))) form =
        (RegResult.registrada c, { st with citas := st.citas ++ [c] }))) ∧
     (((st.citas.map (·.fecha)).count form.fecha : Int) ≥ L →
      form.fecha ∈ get_dias_llenos (get_configuracion st.configuracion)
        (.ok (st.citas.map (·.fecha))) ∧
      registrar_cita_v3 st (.ok (st.citas.map (·.fecha))) form =
        (RegResult.rechazadoLleno, st) ∧
      (∀ c, (registrar_cita_v1 st (.ok (st.citas.map (·.fecha))) form).1 ≠
        RegResult.registrada c) ∧
      (registrar_cita_v1 st (.ok (st.citas.map (·.fecha))) form).2 = st)) := by
  have hwd : form.fecha.weekday ≤ 5 := by
    by_contra hw
    push_neg at hw
    obtain ⟨k, hk⟩ : ∃ k, form.fecha.weekday = k + 6 :=
      ⟨form.fecha.weekday - 6, by omega⟩
    have h6 : mapa_dias form.fecha.weekday = none := by
      rw [hk]
      rfl
    simp [limite?, h6] at hlim
  constructor
  · intro hcnt
    have hnotfull : form.fecha ∉ get_dias_llenos (get_configuracion st.configuracion)
        (.ok (st.citas.map (·.fecha))) := by
      rw [mem_get_dias_llenos]
      rintro ⟨-, -, l, hl, hge⟩
      rw [hlim, Option.some_inj] at hl
      omega
    refine ⟨hnotfull, ?_, ?_⟩
    · refine ⟨citaDeFormulario (freshId st) form, ?_⟩
      simp only [registrar_cita_v3]
      rw [if_neg hsab, if_neg hdom, if_neg hblq, if_neg hnotfull,
        if_neg hsab, if_neg hdom, if_neg hblq, if_neg hblq]
    · refine ⟨citaDeFormulario (freshId st) form, ?_⟩
      simp only [registrar_cita_v1]
      rw [if_neg hsab, if_neg hdom, if_neg hblq, if_neg hnotfull,
        if_neg hsab, if_neg hdom, if_neg hblq, if_neg hblq]
  · intro hcnt
    have hmem : form.fecha ∈ (st.citas.map (·.fecha)) := by
      by_contra hnm
      rw [List.count_eq_zero_of_not_mem hnm] at hcnt
      omega
    have hfull : form.fecha ∈ get_dias_llenos (get_configuracion st.configuracion)
        (.ok (st.citas.map (·.fecha))) :=
      mem_get_dias_llenos.2 ⟨hmem, hwd, L, hlim, hcnt⟩
    refine ⟨hfull, ?_, ?_, ?_⟩
    · simp only [registrar_cita_v3]
      rw [if_neg hsab, if_neg hdom, if_neg hblq, if_pos hfull]
    · intro c
      simp only [registrar_cita_v1]
      rw [if_neg hsab, if_neg hdom, if_neg hblq, if_pos hfull]
      simp
    · simp only [registrar_cita_v1]
      rw [if_neg hsab, if_neg hdom, if_neg hblq, if_pos hfull]


/-- Store for the C1 witness: one cita on Monday 2026-10-19, Monday limit 2
(so the count is exactly L - 1). -/
def stC1 : Store :=
  { citas := [citaEj 1 (Fecha.mk 2026 10 19)]
    fechas_bloqueadas := []
    pagos := []
    configuracion := [("max_pacientes_lunes", "2")] }

/-- Witness for C1 at a concrete input: with limit 2 and one existing cita,
Monday 2026-10-19 is not full and both public handlers register the
booking. -/
theorem claim1_capacidad_witness :
    (formEj (Fecha.mk 2026 10 19)).fecha ∉
      get_dias_llenos (get_configuracion stC1.configuracion)
        (.ok (stC1.citas.map (·.fecha))) ∧
    (∃ c, registrar_cita_v3 stC1 (.ok (stC1.citas.map (·.fecha)))
        (formEj (Fecha.mk 2026 10 19)) =
      (RegResult.registrada c, { stC1 with citas := stC1.citas ++ [c] })) ∧
    (∃ c, registrar_cita_v1 stC1 (.ok (stC1.citas.map (·.fecha)))
        (formEj (Fecha.mk 2026 10 19)) =
      (RegResult.registrada c, { stC1 with citas := stC1.citas ++ [c] })) :=
  (claim1_capacidad stC1 (formEj (Fecha.mk 2026 10 19)) 2
    (by decide) (by decide) (by decide) (by decide) (by decide)).1 (by decide)
